import Mathlib

/-!
Shallow embedding of `wbpy/wbpy.py` (World Bank API client) in Lean 4,
with theorems settling the frozen claims about it.

Python dicts are modelled as association lists with insertion-order
preserved: assignment (`d[k] = v`) replaces the value in place when the
key exists and appends otherwise; lookup returns the unique entry.
Python `None` is modelled with `Option`; exceptions with `Except Err`.
External collaborators (HTTP fetch + JSON parse, the `pycountry` table,
Python `repr` formatting of values) are parameters of the definitions.
-/

namespace Wbpy

/-- Errors a call can raise.  `configurationConflict` models the failed
`assert` in `_generate_indicators_url`; `nameError` a reference to an
undefined global name; `unboundLocal` a read of a local variable before
any assignment; the rest model the like-named Python exceptions. -/
inductive Err where
  | configurationConflict : Err
  | keyError : Err
  | nameError : String → Err
  | unboundLocal : String → Err
  | typeError : Err
  | indexError : Err
  | outOfFuel : Err
  deriving DecidableEq, Repr

/-- Association-list model of a Python dict (insertion ordered). -/
abbrev Dict (κ α : Type) : Type := List (κ × α)

/-- The empty dict. -/
def Dict.empty {κ α : Type} : Dict κ α := []

/-- Python `d[k] = v`: replace in place if the key exists, else append. -/
def dset {κ α : Type} [DecidableEq κ] : Dict κ α → κ → α → Dict κ α
  | [], k, v => [(k, v)]
  | (k', v') :: rest, k, v =>
      if k' = k then (k, v) :: rest else (k', v') :: dset rest k v

/-- Python `d[k]` / `d.get(k)`: first (unique) binding of the key. -/
def dlookup {κ α : Type} [DecidableEq κ] : Dict κ α → κ → Option α
  | [], _ => none
  | (k', v') :: rest, k => if k' = k then some v' else dlookup rest k

/-- Python `k in d` / `d.has_key(k)`. -/
def dhas {κ α : Type} [DecidableEq κ] (d : Dict κ α) (k : κ) : Bool :=
  (dlookup d k).isSome

/-- Python `del d[k]`. -/
def ddel {κ α : Type} [DecidableEq κ] (d : Dict κ α) (k : κ) : Dict κ α :=
  d.filter (fun kv => decide (kv.1 ≠ k))

/-- Python substring test `needle in hay`. -/
def strContainsSub (hay needle : String) : Bool :=
  decide (needle.toList <:+: hay.toList)

/-- Python `s.upper()` (character-wise, as for the ASCII codes of this
API). -/
def pyUpper (s : String) : String := String.mk (s.data.map Char.toUpper)

/-- Python `s.lower()`. -/
def pyLower (s : String) : String := String.mk (s.data.map Char.toLower)

/-- Python `len(s)`. -/
def pyLen (s : String) : Nat := s.data.length

instance {ε α : Type} [DecidableEq ε] [DecidableEq α] : DecidableEq (Except ε α) := fun x y =>
  match x, y with
  | .ok a, .ok b =>
    if h : a = b then .isTrue (by rw [h])
    else .isFalse (fun hc => by cases hc; exact h rfl)
  | .ok _, .error _ => .isFalse (fun hc => by cases hc)
  | .error _, .ok _ => .isFalse (fun hc => by cases hc)
  | .error e, .error f =>
    if h : e = f then .isTrue (by rw [h])
    else .isFalse (fun hc => by cases hc; exact h rfl)

/-- One `pycountry` country record: the external ISO table's view of a
country (only the fields `wbpy` reads). -/
structure Country where
  alpha2 : String
  alpha3 : String
  deriving DecidableEq, Repr

/-- The injected `pycountry.countries` lookup table: `get(alpha2=c)` and
`get(alpha3=c)` keyword lookups, `none` when the code is unrecognized
(Python raises `KeyError`, which the callers catch). -/
structure CountryTable where
  byAlpha2 : String → Option Country
  byAlpha3 : String → Option Country

/-- Embedding of `_convert_to_alpha2` (wbpy.py lines 41-50) on a string
argument.  The source upper-cases the code, consults the table when the
length is 2 or 3 (an unrecognized code raises `KeyError`, caught, and the
upper-cased `code` is returned), and otherwise falls off the end of the
function, which in Python returns `None` — hence the `Option` result. -/
def _convert_to_alpha2 (T : CountryTable) (code : String) : Option String :=
  let code := pyUpper code
  if pyLen code = 2 then
    match T.byAlpha2 code with
    | some c => some c.alpha2
    | none => some code
  else if pyLen code = 3 then
    match T.byAlpha3 code with
    | some c => some c.alpha2
    | none => some code
  else
    none

/-- Embedding of `_convert_to_alpha3` (wbpy.py lines 52-60), structured
exactly as `_convert_to_alpha2` but projecting the `alpha3` field. -/
def _convert_to_alpha3 (T : CountryTable) (code : String) : Option String :=
  let code := pyUpper code
  if pyLen code = 2 then
    match T.byAlpha2 code with
    | some c => some c.alpha3
    | none => some code
  else if pyLen code = 3 then
    match T.byAlpha3 code with
    | some c => some c.alpha3
    | none => some code
  else
    none

/-- A `pycountry` table holding just the United States, used for concrete
evaluations. -/
def usTable : CountryTable where
  byAlpha2 := fun c => if c = "US" then some ⟨"US", "USA"⟩ else none
  byAlpha3 := fun c => if c = "USA" then some ⟨"US", "USA"⟩ else none

/-- Embedding of `Indicators.match_data` (wbpy.py lines 276-294): builds
a fresh dict `search_matches` holding the entries whose value, formatted
by the external `repr`-like collaborator `fmt` and lower-cased, contains
the lower-cased match string.  `α` is the value type of the input dict. -/
def match_data {α : Type} (fmt : α → String) (ss : String)
    (results : Dict String α) : Dict String α :=
  let ss := pyLower ss
  List.foldl
    (fun acc kv =>
      if strContainsSub (pyLower (fmt kv.2)) ss then dset acc kv.1 kv.2 else acc)
    Dict.empty results

/-- A value held in the option bag (`**kwargs`): a string, a number, or
a sequence of stringable values. -/
inductive OptVal where
  | vs : String → OptVal
  | vn : Int → OptVal
  | vl : List String → OptVal
  deriving DecidableEq, Repr

/-- Python `str(v)` / `"{}".format(v)` on an option value. -/
def pyStr : OptVal → String
  | .vs s => s
  | .vn n => toString n
  | .vl l => "[" ++ String.intercalate ", " (l.map (fun s => "\x27" ++ s ++ "\x27")) ++ "]"

/-- Query-string rendering of an option value (wbpy.py lines 334-339):
numbers via `str`, non-string sequences joined with `;`, strings as-is. -/
def queryStr : OptVal → String
  | .vs s => s
  | .vn n => toString n
  | .vl l => String.intercalate ";" l

/-- `Indicators.base_url`. -/
def indicators_base_url : String := "http://api.worldbank.org/"

/-- The lower-casing of option names at the top of
`_generate_indicators_url` (the dict comprehension
`{k.lower(): v for k, v in kwargs.items()}`). -/
def lowerKeys (kwargs : Dict String OptVal) : Dict String OptVal :=
  List.foldl (fun d kv => dset d (pyLower kv.1) kv.2) Dict.empty kwargs

/-- Embedding of `Indicators._generate_indicators_url` (wbpy.py lines
298-343).  Option names are lower-cased; the `assert` that `topic` and
`source` are not both present becomes a `configurationConflict` error;
`format`/`per_page` are forced, `page` is stripped, `mrv=1` injected when
neither `mrv` nor `date` is present; `source`, `topic` and `language`
move into the path (language prepended last, hence outermost); the rest
become `k=v` query parameters joined with `&`. -/
def _generate_indicators_url (base_url : String) (rest_url0 : String)
    (kwargs : Dict String OptVal) : Except Err String :=
  let kwargs := lowerKeys kwargs
  if dhas kwargs "topic" && dhas kwargs "source" then
    .error .configurationConflict
  else
    let kwargs := dset kwargs "format" (.vs "json")
    let kwargs := dset kwargs "per_page" (.vs "10000")
    let kwargs := ddel kwargs "page"
    let kwargs :=
      if !dhas kwargs "mrv" && !dhas kwargs "date" then
        dset kwargs "mrv" (.vn 1)
      else kwargs
    let (rest_url1, kwargs) :=
      match dlookup kwargs "source" with
      | some v => ("source/" ++ pyStr v ++ "/" ++ rest_url0, ddel kwargs "source")
      | none => (rest_url0, kwargs)
    let (rest_url2, kwargs) :=
      match dlookup kwargs "topic" with
      | some v => ("topic/" ++ pyStr v ++ "/" ++ rest_url1, ddel kwargs "topic")
      | none => (rest_url1, kwargs)
    let (rest_url3, kwargs) :=
      match dlookup kwargs "language" with
      | some v => (pyStr v ++ "/" ++ rest_url2, ddel kwargs "language")
      | none => (rest_url2, kwargs)
    let options := kwargs.map (fun kv => kv.1 ++ "=" ++ queryStr kv.2)
    let query_string := String.intercalate "&" options
    .ok (base_url ++ rest_url3 ++ query_string)

/-- One parsed `[header, content]` page envelope of the Indicators API;
the injected fetch collaborator composed with JSON parsing yields one of
these per URL. -/
structure Envelope (α : Type) where
  page : Int
  pages : Int
  content : List α
  deriving Repr, DecidableEq

/-- Embedding of `Indicators._get_api_response_as_json` (wbpy.py lines
345-357).  `fetchParse` is the injected fetch composed with `json.loads`.
The source recurses on `url + "&page=" + (page+1)` while `page < pages`;
the recursion is given explicit fuel, `outOfFuel` standing for the
non-termination a misbehaving server would cause. -/
def _get_api_response_as_json {α : Type} (fetchParse : String → Envelope α) :
    Nat → String → Except Err (List α)
  | 0, _ => .error .outOfFuel
  | fuel + 1, url =>
    let e := fetchParse url
    if e.page < e.pages then
      match _get_api_response_as_json fetchParse fuel
          (url ++ "&page=" ++ toString (e.page + 1)) with
      | .ok rest => .ok (e.content ++ rest)
      | .error er => .error er
    else
      .ok e.content

/-- A metadata entity record: one JSON object of a metadata endpoint,
modelled as a dict of string fields. -/
abbrev Rec : Type := Dict String String

/-- The fold of `_get_indicator_data` over the fetched record list
(wbpy.py lines 378-380): `tidier_data[data[response_key]] = data` for
each record in arrival order; a record lacking the response key raises
`KeyError`. -/
def tidyFold (response_key : String) (response : List Rec) :
    Except Err (Dict String Rec) :=
  List.foldlM
    (fun d r =>
      match dlookup r response_key with
      | some k => .ok (dset d k r)
      | none => .error Err.keyError)
    Dict.empty response

/-- Embedding of `Indicators._get_indicator_data` (wbpy.py lines
359-383): joins the API ids into the path, builds the URL, fetches all
pages, folds the records into a dict keyed by `response_key`, then
applies the optional match filter.  `fmt` is the external `repr`
formatting used by `match_data`. -/
def _get_indicator_data (fetchParse : String → Envelope Rec)
    (fmt : Rec → String) (fuel : Nat) (api_ids : List String)
    (rest_url : String) (response_key : String) (matchQ : Option String)
    (kwargs : Dict String OptVal) : Except Err (Dict String Rec) := do
  let url :=
    if api_ids ≠ [] then
      rest_url ++ "/" ++ String.intercalate ";" api_ids ++ "?"
    else
      rest_url ++ "?"
  let url ← _generate_indicators_url indicators_base_url url kwargs
  let response ← _get_api_response_as_json fetchParse fuel url
  let tidier ← tidyFold response_key response
  match matchQ with
  | some ss => pure (match_data fmt ss tidier)
  | none => pure tidier

/-- Embedding of `Indicators.get_countries` (wbpy.py lines 159-173).
With a truthy `country_codes` the source evaluates the comprehension
`[_covert_to_alpha3(code) for code in country_codes]`, and
`_covert_to_alpha3` is an undefined name (a misspelling of
`_convert_to_alpha3`), so the call raises `NameError` before any URL is
built or fetched; with an empty list it proceeds to
`_get_indicator_data`. -/
def get_countries (fetchParse : String → Envelope Rec) (fmt : Rec → String)
    (fuel : Nat) (country_codes : List String) (matchQ : Option String)
    (kwargs : Dict String OptVal) : Except Err (Dict String Rec) :=
  if country_codes ≠ [] then
    .error (.nameError "_covert_to_alpha3")
  else
    _get_indicator_data fetchParse fmt fuel country_codes "country"
      "iso2Code" matchQ kwargs

/-- `Climate.base_url`. -/
def climate_base_url : String := "http://climatedataapi.worldbank.org/climateweb/rest/"

/-- One climate observation: one JSON object of a modelled-data response,
with exactly the fields the folds read.  `gcm`, `scenario`, `monthVals`,
`annualVal` and `percentile` may be absent (`has_key` guards or, for
`percentile`, an unconditional read). -/
structure CObs where
  gcm : Option String
  percentile : Option Int
  fromYear : Int
  scenario : Option String
  monthVals : Option (List Int)
  annualVal : Option (List Int)
  deriving DecidableEq, Repr

/-- The time key of the result mapping: `fromYear`, or the tuple
`(fromYear, scenario)` when the observation carries a scenario. -/
inductive TimeKey where
  | y : Int → TimeKey
  | ys : Int → String → TimeKey
  deriving DecidableEq, Repr

/-- The innermost value of a modelled result mapping: the `{}` a time key
is initialised to, possibly filled with month-indexed values, or the
scalar `annualVal[0]` that overwrites it. -/
inductive Entry where
  | months : Dict Nat Int → Entry
  | scalar : Int → Entry
  deriving DecidableEq

/-- Per-location maps of a modelled result (location key is the output
of `_convert_to_alpha2`, hence possibly `None`). -/
abbrev LocMap : Type := Dict (Option String) (Dict TimeKey Entry)

/-- GCM-mode results: `GCM id > location > time > entry`. -/
abbrev GcmResults : Type := Dict String LocMap

/-- Ensemble-mode results: `(ensemble, percentile) > location > time > entry`. -/
abbrev EnsResults : Type := Dict (String × Int) LocMap

instance : DecidableEq GcmResults := List.hasDecEq

instance : DecidableEq EnsResults := List.hasDecEq

/-- The `gcm` argument of the modelled calls: `None`, a string (the
literal `ensemble` selects ensemble mode), or a list of GCM ids. -/
inductive GcmParam where
  | pnone : GcmParam
  | pstr : String → GcmParam
  | plist : List String → GcmParam
  deriving DecidableEq, Repr

/-- Python truthiness of the `gcm` argument. -/
def gcmTruthy : GcmParam → Bool
  | .pnone => false
  | .pstr s => s ≠ ""
  | .plist l => l ≠ []

/-- Python `k in gcm` for the post-fold GCM filter: substring test when
`gcm` is a string, membership when it is a list.  (`in None` cannot be
reached: the filter runs only when `gcm` is truthy.) -/
def gcmMem (g : GcmParam) (k : String) : Bool :=
  match g with
  | .pnone => false
  | .pstr s => strContainsSub s k
  | .plist l => decide (k ∈ l)

/-- Python call `_convert_to_alpha2(loc)` on a value that may be `None`
(then `.upper()` raises `AttributeError`, caught, and the `None` is
returned). -/
def convAlpha2opt (T : CountryTable) : Option String → Option String
  | none => none
  | some s => _convert_to_alpha2 T s

/-- Python `str(loc)` where `loc` may be `None`. -/
def pyStrOpt : Option String → String
  | none => "None"
  | some s => s

/-- Python `int(s)` succeeding on a string (basin ids are ints): an
optional sign followed by at least one decimal digit. -/
def isIntString (s : String) : Bool :=
  match s.data with
  | [] => false
  | c :: rest =>
    if c = '-' || c = '+' then
      !rest.isEmpty && rest.all (fun d => d.isDigit)
    else
      (c :: rest).all (fun d => d.isDigit)

/-- The `try: int(loc) ... except ValueError` dispatch of the modelled
URL loops.  `loc` is a post-`_convert_to_alpha3` value, so it can be
`None`, on which `int` raises an uncaught `TypeError`. -/
def locType : Option String → Except Err String
  | none => .error .typeError
  | some s => .ok (if isIntString s then "basin" else "country")

/-- Fill in month-indexed values: `for i, val in enumerate(vals, 1):
m[i] = val`. -/
def setMonths (m : Dict Nat Int) (vals : List Int) : Dict Nat Int :=
  List.foldl (fun m iv => dset m iv.1 iv.2) m (List.enumFrom 1 vals)

/-- The L3 time key of an observation. -/
def timeOf (d : CObs) : TimeKey :=
  match d.scenario with
  | some s => TimeKey.ys d.fromYear s
  | none => TimeKey.y d.fromYear

/-- The L4 update of `results[key][loc][time]` (shared by both modelled
folds): fill `monthVals` into the current entry (`TypeError` if a scalar
already sits there), or overwrite with `annualVal[0]` (`IndexError` on an
empty list), or leave the entry as initialised. -/
def l4entry (tmap : Dict TimeKey Entry) (time : TimeKey) (d : CObs) :
    Except Err Entry :=
  match d.monthVals with
  | some vals =>
    match (dlookup tmap time).getD (Entry.months Dict.empty) with
    | Entry.months m => .ok (Entry.months (setMonths m vals))
    | Entry.scalar _ => .error .typeError
  | none =>
    match d.annualVal with
    | some (v :: _) => .ok (Entry.scalar v)
    | some [] => .error .indexError
    | none => .ok ((dlookup tmap time).getD (Entry.months Dict.empty))

/-- L2-L4 of the modelled folds: fold one observation into the per-key
sub-map `lmap = results[key]` at location `loc`. -/
def foldIntoLocMap (lmap : LocMap) (loc : Option String) (d : CObs) :
    Except Err LocMap :=
  let lmap := if dhas lmap loc then lmap else dset lmap loc Dict.empty
  let time := timeOf d
  let tmap := (dlookup lmap loc).getD Dict.empty
  let tmap := if dhas tmap time then tmap else dset tmap time (Entry.months Dict.empty)
  match l4entry tmap time d with
  | .error e => .error e
  | .ok entry => .ok (dset lmap loc (dset tmap time entry))

/-- L1 tail plus L2-L4, shared verbatim by the two modelled folds: make
sure `results[key]` exists, then fold the observation into it. -/
def insertIntoResults {κ : Type} [DecidableEq κ] (res : Dict κ LocMap)
    (key : κ) (loc : Option String) (d : CObs) : Except Err (Dict κ LocMap) :=
  let res := if dhas res key then res else dset res key Dict.empty
  let lmap := (dlookup res key).getD Dict.empty
  match foldIntoLocMap lmap loc d with
  | .error e => .error e
  | .ok lmap => .ok (dset res key lmap)

/-- One loop iteration of the GCM-mode fold (wbpy.py lines 512-535).
`st` is the current value of the loop-carried local variable `gcm_key`:
it is assigned only when the record carries a `gcm` field; a record
without one reuses the previous value, and if no assignment has happened
yet Python raises `UnboundLocalError` (an unbound-name error). -/
def gcmStep (st : Option String) (res : GcmResults) (loc : Option String)
    (d : CObs) : Except Err (Option String × GcmResults) :=
  match d.gcm, st with
  | some g, _ => (insertIntoResults res g loc d).map (fun r => (some g, r))
  | none, some g => (insertIntoResults res g loc d).map (fun r => (some g, r))
  | none, none => .error (Err.unboundLocal "gcm_key")

/-- The GCM-mode fold over one fetched response (inner loop `for data in
response`). -/
def gcmFoldResponse (st : Option String) (res : GcmResults)
    (loc : Option String) : List CObs → Except Err (Option String × GcmResults)
  | [] => .ok (st, res)
  | d :: rest =>
    match gcmStep st res loc d with
    | .error e => .error e
    | .ok (st', res') => gcmFoldResponse st' res' loc rest

/-- The GCM-mode fold over all `(loc, url)` pairs (outer loop, wbpy.py
lines 509-535), converting each location to alpha-2 before folding. -/
def gcmFoldAll (T : CountryTable) (fetchParse : String → List CObs) :
    Option String → GcmResults → List (Option String × String) →
    Except Err (Option String × GcmResults)
  | st, res, [] => .ok (st, res)
  | st, res, (loc, url) :: rest => do
    let loc := convAlpha2opt T loc
    let (st, res) ← gcmFoldResponse st res loc (fetchParse url)
    gcmFoldAll T fetchParse st res rest

/-- The SRES post-filter shared by both modelled folds (wbpy.py lines
543-556 and 627-639): when `sres` is truthy, drop every tuple time key
whose scenario does not case-insensitively equal it; plain year keys
raise `TypeError` on the subscript, which is caught, so they are kept. -/
def sresFilter {κ : Type} (sres : Option String) (res : Dict κ LocMap) :
    Dict κ LocMap :=
  match sres with
  | none => res
  | some s =>
    if s = "" then res
    else
      res.map (fun glm =>
        (glm.1, glm.2.map (fun ltm =>
          (ltm.1, ltm.2.filter (fun kv =>
            match kv.1 with
            | .ys _ sc => decide (pyLower sc = pyLower s)
            | .y _ => true)))))

/-- The fixed 19-year windows of GCM mode. -/
def gcm_valid_dates : List Int := [1920, 1940, 1960, 1980, 2020, 2040, 2060, 2080]

/-- URL construction of `_get_modelled_gcm` (wbpy.py lines 490-504). -/
def gcmUrls (data_type var : String) (locations : List (Option String)) :
    Except Err (List (Option String × String)) :=
  List.foldlM
    (fun acc start_date =>
      List.foldlM
        (fun acc loc => do
          let lt ← locType loc
          let rest_url := "v1/" ++ lt ++ "/" ++ data_type ++ "/" ++ var ++ "/" ++
            toString start_date ++ "/" ++ toString (start_date + 19) ++ "/" ++
            pyStrOpt loc
          pure (acc ++ [(loc, climate_base_url ++ rest_url ++ ".json")]))
        acc locations)
    [] gcm_valid_dates

/-- Embedding of `Climate._get_modelled_gcm` (wbpy.py lines 474-557):
URL construction, the stateful fold, then the GCM and SRES filters. -/
def _get_modelled_gcm (T : CountryTable) (fetchParse : String → List CObs)
    (var data_type : String) (locations : List (Option String))
    (gcm : GcmParam) (sres : Option String) : Except Err GcmResults := do
  let urls ← gcmUrls data_type var locations
  let (_, results) ← gcmFoldAll T fetchParse none Dict.empty urls
  let results :=
    if gcmTruthy gcm then results.filter (fun kv => gcmMem gcm kv.1) else results
  pure (sresFilter sres results)

/-- One loop iteration of the ensemble-mode fold (wbpy.py lines
597-616): the key is the tuple `(ensemble, percentile)`, with
`data['percentile']` read unconditionally (`KeyError` if absent). -/
def ensStep (res : EnsResults) (loc : Option String) (d : CObs) :
    Except Err EnsResults :=
  match d.percentile with
  | some p => insertIntoResults res ("ensemble", p) loc d
  | none => .error Err.keyError

/-- The ensemble-mode fold over all `(loc, url)` pairs (wbpy.py lines
594-616). -/
def ensFoldAll (T : CountryTable) (fetchParse : String → List CObs) :
    EnsResults → List (Option String × String) → Except Err EnsResults
  | res, [] => .ok res
  | res, (loc, url) :: rest => do
    let loc := convAlpha2opt T loc
    let res ← List.foldlM (fun res d => ensStep res loc d) res (fetchParse url)
    ensFoldAll T fetchParse res rest

/-- URL construction of `_get_modelled_ensemble` (wbpy.py lines
562-589): derived statistics use the 3 windows 1961/2046/2081 (1961's
end fixed at 2000), direct variables the same 8 windows as GCM mode. -/
def ensUrls (var data_type : String) (locations : List (Option String)) :
    Except Err (List (Option String × String)) :=
  let valid_dates : List Int :=
    if var ∉ ["pr", "tas"] then [1961, 2046, 2081] else gcm_valid_dates
  List.foldlM
    (fun acc start_date =>
      let end_date : Int := if start_date = 1961 then 2000 else start_date + 19
      List.foldlM
        (fun acc loc => do
          let lt ← locType loc
          let rest_url := "v1/" ++ lt ++ "/" ++ data_type ++ "/ensemble/" ++
            var ++ "/" ++ toString start_date ++ "/" ++ toString end_date ++
            "/" ++ pyStrOpt loc
          pure (acc ++ [(loc, climate_base_url ++ rest_url ++ ".json")]))
        acc locations)
    [] valid_dates

/-- Embedding of `Climate._get_modelled_ensemble` (wbpy.py lines
559-640).  The percentile post-filter's loop body references the
undefined global name `ensemble_percentiles` (the parameter is spelled
`ensemble_percentile`), so whenever the parameter is truthy and there is
at least one result key to iterate over, the call raises `NameError`. -/
def _get_modelled_ensemble (T : CountryTable) (fetchParse : String → List CObs)
    (var data_type : String) (locations : List (Option String))
    (sres : Option String) (ensemble_percentile : Option (List Int)) :
    Except Err EnsResults := do
  let urls ← ensUrls var data_type locations
  let results ← ensFoldAll T fetchParse Dict.empty urls
  let epTruthy := match ensemble_percentile with
    | none => false
    | some l => l ≠ []
  let results ←
    if epTruthy then
      match results with
      | [] => pure results
      | _ :: _ => Except.error (Err.nameError "ensemble_percentiles")
    else pure results
  pure (sresFilter sres results)

/-- The result of `_get_modelled`: a GCM-mode or an ensemble-mode
mapping (Python returns a dict of either key shape). -/
inductive ModelledResult where
  | gcmRes : GcmResults → ModelledResult
  | ensRes : EnsResults → ModelledResult
  deriving DecidableEq

/-- Embedding of `Climate._get_modelled` (wbpy.py lines 448-472):
expands a leading `a` of `data_type` to `annual`, lower-cases a string
`gcm` (`AttributeError` on other shapes is caught), converts locations
to alpha-3, and dispatches on `gcm == "ensemble"`. -/
def _get_modelled (T : CountryTable) (fetchParse : String → List CObs)
    (var data_type : String) (locations : List String) (gcm : GcmParam)
    (sres : Option String) (ensemble_percentile : Option (List Int)) :
    Except Err ModelledResult :=
  let data_type :=
    match data_type.data with
    | 'a' :: rest => "annual" ++ String.mk rest
    | _ => data_type
  let gcm := match gcm with
    | .pstr s => GcmParam.pstr (pyLower s)
    | g => g
  let locations := locations.map (fun code => _convert_to_alpha3 T code)
  if gcm = GcmParam.pstr "ensemble" then
    (_get_modelled_ensemble T fetchParse var data_type locations sres
      ensemble_percentile).map ModelledResult.ensRes
  else
    (_get_modelled_gcm T fetchParse var data_type locations gcm sres).map
      ModelledResult.gcmRes

/-- Embedding of `Climate.get_precip_modelled` (wbpy.py lines 398-402):
note the source passes the literal `ensemble_percentile=None` to
`_get_modelled`, discarding the caller's argument. -/
def get_precip_modelled (T : CountryTable) (fetchParse : String → List CObs)
    (data_type : String) (locations : List String) (gcm : GcmParam)
    (sres : Option String) (ensemble_percentile : Option (List Int)) :
    Except Err ModelledResult :=
  _get_modelled T fetchParse "pr" data_type locations gcm sres none

/-- Embedding of `Climate.get_temp_modelled` (wbpy.py lines 404-408):
likewise passes the literal `ensemble_percentile=None`. -/
def get_temp_modelled (T : CountryTable) (fetchParse : String → List CObs)
    (data_type : String) (locations : List String) (gcm : GcmParam)
    (sres : Option String) (ensemble_percentile : Option (List Int)) :
    Except Err ModelledResult :=
  _get_modelled T fetchParse "tas" data_type locations gcm sres none

/-! ### Dictionary lemmas -/

theorem dlookup_dset_self {κ α : Type} [DecidableEq κ] (d : Dict κ α) (k : κ)
    (v : α) : dlookup (dset d k v) k = some v := by
  induction d with
  | nil => simp [dset, dlookup]
  | cons kv rest ih =>
    obtain ⟨k', v'⟩ := kv
    by_cases h : k' = k
    · subst h; simp [dset, dlookup]
    · simp [dset, dlookup, h, ih]

theorem dlookup_dset_ne {κ α : Type} [DecidableEq κ] (d : Dict κ α)
    (k k' : κ) (v : α) (h : k' ≠ k) :
    dlookup (dset d k v) k' = dlookup d k' := by
  induction d with
  | nil => simp [dset, dlookup, Ne.symm h]
  | cons kv rest ih =>
    obtain ⟨k'', v''⟩ := kv
    by_cases hk : k'' = k
    · subst hk
      simp [dset, dlookup, Ne.symm h]
    · by_cases hk' : k'' = k'
      · subst hk'
        simp only [dset, if_neg h, dlookup]
        simp
      · simp [dset, dlookup, hk, hk', ih]

theorem dlookup_append {κ α : Type} [DecidableEq κ] (a b : Dict κ α) (k : κ) :
    dlookup (a ++ b) k =
      match dlookup a k with
      | some v => some v
      | none => dlookup b k := by
  induction a with
  | nil =>
    show dlookup (List.nil ++ b) k = _
    simp [dlookup]
  | cons kv rest ih =>
    by_cases h : kv.1 = k
    · show dlookup (kv :: (rest ++ b)) k = _
      simp [dlookup, h]
    · show dlookup (kv :: (rest ++ b)) k = _
      simpa [dlookup, h] using ih

theorem dset_of_not_mem {κ α : Type} [DecidableEq κ] (d : Dict κ α) (k : κ)
    (v : α) (h : dlookup d k = none) : dset d k v = d ++ [(k, v)] := by
  induction d with
  | nil => rfl
  | cons kv rest ih =>
    by_cases hk : kv.1 = k
    · simp [dlookup, hk] at h
    · simp only [dlookup, hk, if_false] at h
      show dset (kv :: rest) k v = kv :: (rest ++ [(k, v)])
      simp [dset, hk, ih h]

/-! ### C2: behaviour of the code-normalization functions on
unrecognized inputs -/

/-- C2 counterexample: the claim says an unrecognized input code is
returned unchanged.  On the string `"1234"` (a numeric basin-id-like
string whose length is neither 2 nor 3) both functions fall off the end
of the Python function body and return `None`, not the input. -/
theorem convert_passthrough_counterexample :
    _convert_to_alpha2 usTable "1234" = none ∧
    _convert_to_alpha3 usTable "1234" = none ∧
    (none : Option String) ≠ some "1234" := by
  refine ⟨by decide, by decide, by decide⟩

/-- C2 amended: on a string whose upper-cased form has length other than
2 and 3, both functions return `None`; on an unrecognized 2-letter
(resp. 3-letter) code they return the *upper-cased* input (the
`KeyError` from the table lookup is caught and the rebound local `code`
is returned). -/
theorem convert_unrecognized_amended (T : CountryTable) (code : String) :
    (pyLen (pyUpper code) ≠ 2 → pyLen (pyUpper code) ≠ 3 →
      _convert_to_alpha2 T code = none ∧ _convert_to_alpha3 T code = none) ∧
    (pyLen (pyUpper code) = 2 → T.byAlpha2 (pyUpper code) = none →
      _convert_to_alpha2 T code = some (pyUpper code) ∧
      _convert_to_alpha3 T code = some (pyUpper code)) ∧
    (pyLen (pyUpper code) = 3 → T.byAlpha3 (pyUpper code) = none →
      _convert_to_alpha2 T code = some (pyUpper code) ∧
      _convert_to_alpha3 T code = some (pyUpper code)) := by
  refine ⟨fun h1 h2 => ?_, fun h1 h2 => ?_, fun h1 h2 => ?_⟩ <;>
    simp [_convert_to_alpha2, _convert_to_alpha3, h1, h2]

/-- Witness for the amended C2 theorem at the concrete unrecognized
2-letter code `"xq"`. -/
theorem convert_unrecognized_amended_witness :
    _convert_to_alpha2 usTable "xq" = some (pyUpper "xq") ∧
    _convert_to_alpha3 usTable "xq" = some (pyUpper "xq") :=
  (convert_unrecognized_amended usTable "xq").2.1 (by decide) (by decide)

/-! ### C5: topic/source mutual exclusion in the URL builder -/

/-- C5: whenever the lower-cased option bag contains both `topic` and
`source`, `_generate_indicators_url` fails with the configuration
conflict (the source's `assert`) and produces no URL. -/
theorem url_builder_topic_source_conflict (base rest : String)
    (kwargs : Dict String OptVal)
    (h1 : dhas (lowerKeys kwargs) "topic" = true)
    (h2 : dhas (lowerKeys kwargs) "source" = true) :
    _generate_indicators_url base rest kwargs = .error .configurationConflict := by
  unfold _generate_indicators_url
  simp [h1, h2]

/-- Witness for C5: a bag carrying `Topic` (upper-case, lowered by the
builder) and `source`. -/
theorem url_builder_topic_source_conflict_witness :
    _generate_indicators_url indicators_base_url "indicator?"
        [("Topic", .vn 5), ("source", .vn 2)] = .error .configurationConflict :=
  url_builder_topic_source_conflict indicators_base_url "indicator?"
    [("Topic", .vn 5), ("source", .vn 2)] (by decide) (by decide)

/-! ### C7: path placement of language and topic -/

/-- C7: for the option bag `{language: "fr", topic: 5}` and path
fragment `indicator?`, the built URL is the base URL followed by
exactly `fr/topic/5/indicator?` (language outermost, then topic, then
the original fragment) and then the query string. -/
theorem url_builder_language_topic_order :
    ∃ qs, _generate_indicators_url indicators_base_url "indicator?"
        [("language", .vs "fr"), ("topic", .vn 5)] =
      .ok (indicators_base_url ++ "fr/topic/5/indicator?" ++ qs) := by
  refine ⟨"format=json&per_page=10000&mrv=1", ?_⟩
  decide

/-! ### C1: repeated response keys in the metadata fold -/

/-- Eager `Option` fallback: `oor a b` is `a` unless `a` is `none`. -/
def oor {β : Type} : Option β → Option β → Option β
  | some b, _ => some b
  | none, o => o

theorem oor_none_right {β : Type} (a : Option β) : oor a none = a := by
  cases a <;> rfl

/-- The last `some` that `f` produces over a list, in arrival order. -/
def lastSome {α β : Type} (f : α → Option β) (l : List α) : Option β :=
  List.foldl (fun o x => oor (f x) o) none l

theorem foldl_lastSome_init {α β : Type} (f : α → Option β) :
    ∀ (l : List α) (o : Option β),
      List.foldl (fun o x => oor (f x) o) o l = oor (lastSome f l) o := by
  intro l
  induction l with
  | nil => intro o; cases o <;> rfl
  | cons x rest ih =>
    intro o
    show List.foldl _ (oor (f x) o) rest = oor (lastSome f (x :: rest)) o
    rw [ih]
    show _ = oor (List.foldl _ (oor (f x) none) rest) o
    rw [ih]
    cases lastSome f rest <;> cases f x <;> rfl

theorem lastSome_cons {α β : Type} (f : α → Option β) (x : α) (l : List α) :
    lastSome f (x :: l) = oor (lastSome f l) (f x) := by
  show List.foldl _ (oor (f x) none) l = _
  rw [foldl_lastSome_init]
  cases f x <;> rfl

/-- The last record (in arrival order) of `response` whose
`response_key` field equals `k`: this is what the dict-overwrite fold of
`_get_indicator_data` keeps for key `k`. -/
def lastRecWith (response_key k : String) (response : List Rec) : Option Rec :=
  lastSome
    (fun r => if dlookup r response_key = some k then some r else none) response

theorem tidyFold_go (response_key : String) :
    ∀ (response : List Rec) (acc : Dict String Rec),
      (∀ r ∈ response, (dlookup r response_key).isSome = true) →
      ∃ d, List.foldlM
          (fun d r =>
            match dlookup r response_key with
            | some k => Except.ok (dset d k r)
            | none => Except.error Err.keyError)
          acc response = .ok d ∧
        ∀ k, dlookup d k = oor (lastRecWith response_key k response) (dlookup acc k) := by
  intro response
  induction response with
  | nil =>
    intro acc _
    exact ⟨acc, rfl, fun k => rfl⟩
  | cons r rest ih =>
    intro acc h
    have hr : (dlookup r response_key).isSome = true := h r (by simp)
    obtain ⟨kr, hkr⟩ := Option.isSome_iff_exists.mp hr
    have hrest : ∀ r' ∈ rest, (dlookup r' response_key).isSome = true :=
      fun r' hm => h r' (by simp [hm])
    obtain ⟨d, hd, hkd⟩ := ih (dset acc kr r) hrest
    refine ⟨d, ?_, ?_⟩
    · show (match dlookup r response_key with
        | some k => Except.ok (dset acc k r)
        | none => Except.error Err.keyError) >>= _ = _
      rw [hkr]
      exact hd
    · intro k
      rw [hkd k]
      unfold lastRecWith
      rw [lastSome_cons]
      by_cases hk : kr = k
      · subst hk
        rw [dlookup_dset_self]
        simp only [hkr, if_pos rfl]
        cases lastSome (fun r' =>
          if dlookup r' response_key = some kr then some r' else none) rest <;> rfl
      · rw [dlookup_dset_ne acc kr k r (Ne.symm hk)]
        have : (if dlookup r response_key = some k then some r else none) = none := by
          rw [hkr]; simp [hk]
        rw [this, oor_none_right]

/-- C1 counterexample: two records arrive sharing the response key
`"A"`; the claim says the first survives, but `_get_indicator_data`
returns the mapping binding `"A"` to the *second* record. -/
def c1rec1 : Rec := [("id", "A"), ("name", "x")]

/-- The second record of the C1 counterexample (same `id`, different
`name`). -/
def c1rec2 : Rec := [("id", "A"), ("name", "y")]

/-- A fetch collaborator serving the two same-key records as a one-page
response on the URL `_get_indicator_data` builds for the `indicator`
endpoint. -/
def c1fetch : String → Envelope Rec := fun url =>
  if url = "http://api.worldbank.org/indicator?format=json&per_page=10000&mrv=1"
  then ⟨1, 1, [c1rec1, c1rec2]⟩ else ⟨1, 1, []⟩

/-- C1 counterexample theorem: on two records sharing the response key,
the metadata client binds the key to the second (last) record, which
differs from the first — refuting first-occurrence-wins. -/
theorem metadata_first_wins_counterexample :
    _get_indicator_data c1fetch (fun _ => "") 1 [] "indicator" "id" none [] =
      .ok [("A", c1rec2)] ∧ c1rec2 ≠ c1rec1 := by
  refine ⟨by decide, by decide⟩

/-- C1 amended: when every arriving record carries the response key, the
fold succeeds and binds each key to the *last* record (in arrival order)
having it. -/
theorem metadata_fold_last_wins (response_key : String) (response : List Rec)
    (h : ∀ r ∈ response, (dlookup r response_key).isSome = true) :
    ∃ d, tidyFold response_key response = .ok d ∧
      ∀ k, dlookup d k = lastRecWith response_key k response := by
  obtain ⟨d, hd, hk⟩ := tidyFold_go response_key response Dict.empty h
  refine ⟨d, hd, fun k => ?_⟩
  rw [hk k]
  exact oor_none_right _

/-- Witness for the amended C1 theorem on the two-record response. -/
theorem metadata_fold_last_wins_witness :
    ∃ d, tidyFold "id" [c1rec1, c1rec2] = .ok d ∧
      ∀ k, dlookup d k = lastRecWith "id" k [c1rec1, c1rec2] :=
  metadata_fold_last_wins "id" [c1rec1, c1rec2] (by decide)

/-! ### C10: match_data is an exact case-insensitive substring filter -/

theorem match_data_go {α : Type} (fmt : α → String) (ssl : String) :
    ∀ (l : List (String × α)) (acc : Dict String α),
      (l.map Prod.fst).Nodup →
      (∀ kv ∈ l, dlookup acc kv.1 = none) →
      List.foldl
        (fun acc kv =>
          if strContainsSub (pyLower (fmt kv.2)) ssl then dset acc kv.1 kv.2
          else acc)
        acc l =
      acc ++ l.filter (fun kv => strContainsSub (pyLower (fmt kv.2)) ssl) := by
  intro l
  induction l with
  | nil => intro acc _ _; simp
  | cons kv rest ih =>
    intro acc hnodup hacc
    have hkv : dlookup acc kv.1 = none := hacc kv (by simp)
    rw [List.map_cons, List.nodup_cons] at hnodup
    obtain ⟨hnotin, hrest_nodup⟩ := hnodup
    by_cases hp : strContainsSub (pyLower (fmt kv.2)) ssl = true
    · have hacc' : ∀ kv' ∈ rest, dlookup (acc ++ [(kv.1, kv.2)]) kv'.1 = none := by
        intro kv' hm
        rw [dlookup_append, hacc kv' (by simp [hm])]
        have hne : kv.1 ≠ kv'.1 := by
          intro hcontra
          exact hnotin (by rw [hcontra]; exact List.mem_map_of_mem Prod.fst hm)
        simp [dlookup, hne]
      have hstep : dset acc kv.1 kv.2 = acc ++ [(kv.1, kv.2)] :=
        dset_of_not_mem acc kv.1 kv.2 hkv
      show List.foldl _ (if strContainsSub (pyLower (fmt kv.2)) ssl
          then dset acc kv.1 kv.2 else acc) rest = _
      rw [if_pos hp, hstep, ih (acc ++ [(kv.1, kv.2)]) hrest_nodup hacc']
      have hfc : List.filter
          (fun kv => strContainsSub (pyLower (fmt kv.2)) ssl) (kv :: rest) =
          kv :: List.filter
            (fun kv => strContainsSub (pyLower (fmt kv.2)) ssl) rest := by
        simp [List.filter_cons, hp]
      rw [hfc, List.append_assoc]
      rfl
    · have hp' : strContainsSub (pyLower (fmt kv.2)) ssl = false := by
        simpa using hp
      show List.foldl _ (if strContainsSub (pyLower (fmt kv.2)) ssl
          then dset acc kv.1 kv.2 else acc) rest = _
      have hfc : List.filter
          (fun kv => strContainsSub (pyLower (fmt kv.2)) ssl) (kv :: rest) =
          List.filter
            (fun kv => strContainsSub (pyLower (fmt kv.2)) ssl) rest := by
        simp [List.filter_cons, hp']
      rw [if_neg (by simp [hp']), ih acc hrest_nodup
        (fun kv' hm => hacc kv' (by simp [hm])), hfc]

/-- C10: on a dict with (necessarily) unique keys, `match_data` returns
exactly the entries whose formatted value contains the match string
case-insensitively, in order — a fresh dict built from empty, the input
itself being left untouched by the pure fold. -/
theorem match_data_is_filter {α : Type} (fmt : α → String) (ss : String)
    (results : Dict String α) (h : (results.map Prod.fst).Nodup) :
    match_data fmt ss results =
      results.filter
        (fun kv => strContainsSub (pyLower (fmt kv.2)) (pyLower ss)) := by
  unfold match_data
  rw [match_data_go fmt (pyLower ss) results Dict.empty h (fun _ _ => rfl)]
  rfl

/-- Witness for C10 on a concrete two-entry dict: only the entry whose
value contains `"po"` case-insensitively survives. -/
theorem match_data_is_filter_witness :
    match_data (fun v => v) "PO" [("a", "Population"), ("b", "Health")] =
      List.filter
        (fun kv => strContainsSub (pyLower kv.2) (pyLower "PO"))
        [("a", "Population"), ("b", "Health")] :=
  match_data_is_filter (fun v => v) "PO" [("a", "Population"), ("b", "Health")]
    (by decide)

/-! ### C6: pagination terminates and concatenates all pages in order -/

/-- The URL the recursion of `_get_api_response_as_json` requests for
page `k` when every page `j` reports `page = j`: each recursive call
appends `&page=<j+1>` to the URL of the call before it. -/
def pageUrl (url0 : String) : Nat → String
  | 0 => url0
  | 1 => url0
  | k + 2 => pageUrl url0 (k + 1) ++ "&page=" ++ toString ((k : Int) + 2)

theorem pagination_go {α : Type} (fp : String → Envelope α) (url0 : String)
    (N : Nat) (contentOf : Nat → List α)
    (hfp : ∀ k, 1 ≤ k → k ≤ N →
      fp (pageUrl url0 k) = ⟨(k : Int), (N : Int), contentOf k⟩) :
    ∀ (fuel k : Nat), 1 ≤ k → k ≤ N → N - k < fuel →
      _get_api_response_as_json fp fuel (pageUrl url0 k) =
        .ok (((List.range (N - k + 1)).map (fun i => contentOf (k + i))).flatten) := by
  intro fuel
  induction fuel with
  | zero => intro k _ _ h3; omega
  | succ fuel ih =>
    intro k h1 h2 h3
    simp only [_get_api_response_as_json, hfp k h1 h2]
    by_cases hk : k < N
    · have hcast : ((k : Int) < (N : Int)) := by exact_mod_cast hk
      rw [if_pos hcast]
      obtain ⟨j, rfl⟩ : ∃ j, k = j + 1 := ⟨k - 1, by omega⟩
      have harg : (((j + 1 : Nat) : Int) + 1) = ((j : Int) + 2) := by
        push_cast
        ring
      have hurl : pageUrl url0 (j + 1) ++ "&page=" ++ toString (((j + 1 : Nat) : Int) + 1) =
          pageUrl url0 (j + 2) := by
        rw [harg]
        rfl
      rw [hurl, ih (j + 2) (by omega) (by omega) (by omega)]
      have hjoin : ((List.range (N - (j + 1) + 1)).map
            (fun i => contentOf (j + 1 + i))).flatten =
          contentOf (j + 1) ++
            ((List.range (N - (j + 2) + 1)).map
              (fun i => contentOf (j + 2 + i))).flatten := by
        have hm : N - (j + 1) + 1 = (N - (j + 2) + 1) + 1 := by omega
        rw [hm, List.range_succ_eq_map]
        simp only [List.map_cons, List.flatten_cons, List.map_map, Nat.add_zero]
        have hmap : List.map ((fun i => contentOf (j + 1 + i)) ∘ Nat.succ)
            (List.range (N - (j + 2) + 1)) =
            List.map (fun i => contentOf (j + 2 + i))
              (List.range (N - (j + 2) + 1)) := by
          apply List.map_congr_left
          intro a _
          show contentOf (j + 1 + (a + 1)) = contentOf (j + 2 + a)
          congr 1
          omega
        rw [hmap]
      rw [hjoin]
    · have hkN : k = N := by omega
      subst hkN
      have hcast : ¬((k : Int) < (k : Int)) := by omega
      rw [if_neg hcast]
      have : k - k + 1 = 1 := by omega
      rw [this]
      have hr1 : List.range 1 = [0] := rfl
      simp [hr1]

/-- C6: when every page `k` of the envelope sequence reports
`page = k, pages = N` (page increasing to pages), the paginated fetcher
terminates (given fuel at least `N`) and returns the concatenation of
all pages' content arrays in page order, whose length is the sum of the
per-page content lengths. -/
theorem pagination_concat {α : Type} (fp : String → Envelope α) (url0 : String)
    (N : Nat) (contentOf : Nat → List α) (fuel : Nat)
    (hN : 1 ≤ N) (hfuel : N ≤ fuel)
    (hfp : ∀ k, 1 ≤ k → k ≤ N →
      fp (pageUrl url0 k) = ⟨(k : Int), (N : Int), contentOf k⟩) :
    _get_api_response_as_json fp fuel url0 =
      .ok (((List.range N).map (fun i => contentOf (i + 1))).flatten) ∧
    (((List.range N).map (fun i => contentOf (i + 1))).flatten).length =
      ((List.range N).map (fun i => (contentOf (i + 1)).length)).sum := by
  constructor
  · have h := pagination_go fp url0 N contentOf hfp fuel 1 le_rfl hN (by omega)
    rw [show pageUrl url0 1 = url0 from rfl] at h
    rw [h]
    have hm : N - 1 + 1 = N := by omega
    rw [hm]
    congr 1
    congr 1
    apply List.map_congr_left
    intro a _
    congr 1
    omega
  · rw [List.length_flatten, List.map_map]
    congr 1

/-- A three-page demo server for the pagination witness. -/
def c6fp : String → Envelope Nat := fun u =>
  if u = "u" then ⟨1, 3, [10]⟩
  else if u = "u&page=2" then ⟨2, 3, [20, 21]⟩
  else if u = "u&page=2&page=3" then ⟨3, 3, [30]⟩
  else ⟨1, 1, []⟩

/-- The demo server's per-page content. -/
def c6content : Nat → List Nat := fun k =>
  if k = 1 then [10] else if k = 2 then [20, 21] else if k = 3 then [30] else []

/-- Witness for C6 on the three-page demo server. -/
theorem pagination_concat_witness :
    _get_api_response_as_json c6fp 3 "u" =
      .ok (((List.range 3).map (fun i => c6content (i + 1))).flatten) ∧
    (((List.range 3).map (fun i => c6content (i + 1))).flatten).length =
      ((List.range 3).map (fun i => (c6content (i + 1)).length)).sum :=
  pagination_concat c6fp "u" 3 c6content 3 (by omega) (by omega)
    (by intro k h1 h2; interval_cases k <;> decide)

/-! ### C8: get_countries with country codes hits the misspelled helper -/

/-- A one-country record for the `get_countries` success case. -/
def c8rec : Rec := [("iso2Code", "US"), ("name", "United States")]

/-- A fetch collaborator serving one country record on the URL built for
an unfiltered `country` query. -/
def c8fetch : String → Envelope Rec := fun url =>
  if url = "http://api.worldbank.org/country?format=json&per_page=10000&mrv=1"
  then ⟨1, 1, [c8rec]⟩ else ⟨1, 1, []⟩

/-- C8: with a non-empty `country_codes` list, `get_countries` fails
with the `NameError` for the undefined `_covert_to_alpha3` — for *every*
fetch collaborator, so the failure precedes any fetch — while a call
with an empty list can succeed (shown on a one-record server). -/
theorem get_countries_nameerror (fetchParse : String → Envelope Rec)
    (fmt : Rec → String) (fuel : Nat) (country_codes : List String)
    (matchQ : Option String) (kwargs : Dict String OptVal)
    (h : country_codes ≠ []) :
    get_countries fetchParse fmt fuel country_codes matchQ kwargs =
      .error (.nameError "_covert_to_alpha3") ∧
    get_countries c8fetch (fun _ => "") 1 [] none [] = .ok [("US", c8rec)] := by
  constructor
  · unfold get_countries
    rw [if_pos h]
  · decide

/-- Witness for C8 at the concrete non-empty list `["GB"]`. -/
theorem get_countries_nameerror_witness :
    get_countries c8fetch (fun _ => "") 1 ["GB"] none [] =
      .error (.nameError "_covert_to_alpha3") ∧
    get_countries c8fetch (fun _ => "") 1 [] none [] = .ok [("US", c8rec)] :=
  get_countries_nameerror c8fetch (fun _ => "") 1 ["GB"] none [] (by decide)

/-! ### C3 and C4: the ensemble percentile filter -/

/-- An ensemble observation with percentile 10 and an annual value. -/
def c3obs : CObs :=
  { gcm := none, percentile := some 10, fromYear := 1920, scenario := none,
    monthVals := none, annualVal := some [5] }

/-- C3: with a non-empty percentile allow-list and a response producing
at least one result key, `_get_modelled_ensemble` raises the `NameError`
for the undefined `ensemble_percentiles` instead of filtering —
evaluated here at the failing input (allow-list `[50]`, one observation
with percentile 10 at location `USA`). -/
theorem ensemble_percentile_filter_nameerror :
    _get_modelled_ensemble usTable (fun _ => [c3obs]) "pr" "mavg"
        [some "USA"] none (some [50]) =
      .error (.nameError "ensemble_percentiles") := by
  decide

/-- C4: `get_precip_modelled` discards the caller's
`ensemble_percentile` argument, passing the literal `None` to
`_get_modelled`: with allow-list `[50]` the call succeeds and retains
the model-key `(ensemble, 10)` whose percentile is outside the
allow-list, whereas actually forwarding `[50]` to `_get_modelled` hits
the (defective) percentile filter.  So the filtering the caller requests
is never applied. -/
theorem modelled_percentile_not_forwarded :
    (match get_precip_modelled usTable (fun _ => [c3obs]) "mavg" ["US"]
        (.pstr "ensemble") none (some [50]) with
     | .ok (.ensRes r) => dhas r ("ensemble", 10)
     | _ => false) = true ∧
    _get_modelled usTable (fun _ => [c3obs]) "pr" "mavg" ["US"]
        (.pstr "ensemble") none (some [50]) =
      .error (.nameError "ensemble_percentiles") := by
  exact ⟨by decide, by decide⟩

/-! ### C9: the loop-carried gcm_key local in the GCM-mode fold -/

/-- The `gcm` value of the most recent record (in processing order) that
carries the field. -/
def lastGcmField (recs : List CObs) : Option String :=
  lastSome (fun d => d.gcm) recs

theorem foldIntoLocMap_ok (lmap : LocMap) (loc : Option String) (d : CObs)
    (hm : d.monthVals = none) (ha : d.annualVal ≠ some []) :
    ∃ lm', foldIntoLocMap lmap loc d = .ok lm' ∧
      ∃ tm, dlookup lm' loc = some tm ∧ dhas tm (timeOf d) = true := by
  cases hA : d.annualVal with
  | none =>
    simp only [foldIntoLocMap, l4entry, hm, hA]
    refine ⟨_, rfl, _, dlookup_dset_self _ _ _, ?_⟩
    unfold dhas
    rw [dlookup_dset_self]
    rfl
  | some l =>
    cases l with
    | nil => exact absurd hA ha
    | cons v vs =>
      simp only [foldIntoLocMap, l4entry, hm, hA]
      refine ⟨_, rfl, _, dlookup_dset_self _ _ _, ?_⟩
      unfold dhas
      rw [dlookup_dset_self]
      rfl

theorem insertIntoResults_ok {κ : Type} [DecidableEq κ] (res : Dict κ LocMap)
    (key : κ) (loc : Option String) (d : CObs) (hm : d.monthVals = none)
    (ha : d.annualVal ≠ some []) :
    ∃ res', insertIntoResults res key loc d = .ok res' ∧
      (∀ k, k ≠ key → dlookup res' k = dlookup res k) ∧
      ∃ lm tm, dlookup res' key = some lm ∧ dlookup lm loc = some tm ∧
        dhas tm (timeOf d) = true := by
  obtain ⟨lm', hfold, tm, hlm, htm⟩ :=
    foldIntoLocMap_ok
      ((dlookup (if dhas res key then res else dset res key Dict.empty)
        key).getD Dict.empty) loc d hm ha
  refine ⟨dset (if dhas res key then res else dset res key Dict.empty) key lm',
    ?_, ?_, lm', tm, ?_, hlm, htm⟩
  · simp only [insertIntoResults]
    rw [hfold]
  · intro k hk
    rw [dlookup_dset_ne _ _ _ _ hk]
    by_cases hhas : dhas res key
    · rw [if_pos hhas]
    · rw [if_neg hhas, dlookup_dset_ne _ _ _ _ hk]
  · exact dlookup_dset_self _ _ _

theorem gcmStep_state (st : Option String) (res : GcmResults)
    (loc : Option String) (d : CObs) (st' : Option String)
    (res' : GcmResults) (h : gcmStep st res loc d = .ok (st', res')) :
    st' = oor d.gcm st := by
  cases hg : d.gcm with
  | some g =>
    simp only [gcmStep.eq_def, hg] at h
    cases hI : insertIntoResults res g loc d with
    | error e => rw [hI] at h; exact Except.noConfusion h
    | ok r =>
      rw [hI] at h
      simp only [Except.map, Except.ok.injEq, Prod.mk.injEq] at h
      exact h.1.symm
  | none =>
    cases hst : st with
    | some g =>
      simp only [gcmStep.eq_def, hg, hst] at h
      cases hI : insertIntoResults res g loc d with
      | error e => rw [hI] at h; exact Except.noConfusion h
      | ok r =>
        rw [hI] at h
        simp only [Except.map, Except.ok.injEq, Prod.mk.injEq] at h
        exact h.1.symm
    | none =>
      simp only [gcmStep.eq_def, hg, hst] at h
      exact Except.noConfusion h

theorem gcmFoldResponse_state (loc : Option String) :
    ∀ (recs : List CObs) (st : Option String) (res : GcmResults)
      (st' : Option String) (res' : GcmResults),
      gcmFoldResponse st res loc recs = .ok (st', res') →
      st' = oor (lastGcmField recs) st := by
  intro recs
  induction recs with
  | nil =>
    intro st res st' res' h
    simp only [gcmFoldResponse, Except.ok.injEq, Prod.mk.injEq] at h
    exact h.1.symm
  | cons d rest ih =>
    intro st res st' res' h
    rw [gcmFoldResponse] at h
    cases hstep : gcmStep st res loc d with
    | error e => rw [hstep] at h; exact Except.noConfusion h
    | ok p =>
      obtain ⟨st1, res1⟩ := p
      rw [hstep] at h
      have h1 := ih st1 res1 st' res' h
      have h2 := gcmStep_state st res loc d st1 res1 hstep
      rw [h1, h2]
      unfold lastGcmField
      rw [lastSome_cons]
      cases lastSome (fun d => d.gcm) rest <;> cases d.gcm <;> rfl

/-- An observation lacking the `gcm` field (with an annual value), used
for the concrete C9 evaluations. -/
def c9obs : CObs :=
  { gcm := none, percentile := none, fromYear := 1920, scenario := none,
    monthVals := none, annualVal := some [7] }

/-- An observation carrying `gcm = "gcmx"`, processed before `c9obs` in
the C9 witness. -/
def c9obsA : CObs :=
  { gcm := some "gcmx", percentile := none, fromYear := 1940,
    scenario := none, monthVals := none, annualVal := some [3] }

/-- The results mapping after folding just `c9obsA` at location
`some "US"`. -/
def c9res0 : GcmResults :=
  [("gcmx", [(some "US", [(TimeKey.y 1940, Entry.scalar 3)])])]

/-- C9: in the GCM-mode fold, (1) if the very first record processed
lacks a `gcm` field the fold fails with the unbound-local error for
`gcm_key` rather than skipping the record; (2) after a successful fold
of any prefix, the loop-carried `gcm_key` equals the `gcm` of the most
recent record that had the field, and a following record without the
field is folded under exactly that key (only that key's subtree changes,
and it now holds the record's time entry at the record's location);
(3) end to end, `_get_modelled_gcm` on a server whose first observation
lacks `gcm` raises the unbound-local error. -/
theorem gcm_missing_field_semantics :
    (∀ (res : GcmResults) (loc : Option String) (d : CObs)
        (rest : List CObs), d.gcm = none →
      gcmFoldResponse none res loc (d :: rest) =
        .error (.unboundLocal "gcm_key")) ∧
    (∀ (pre : List CObs) (loc loc' : Option String) (st : Option String)
        (res : GcmResults),
      gcmFoldResponse none Dict.empty loc pre = .ok (st, res) →
      ∀ (d : CObs) (g : String), d.gcm = none → lastGcmField pre = some g →
        d.monthVals = none → d.annualVal ≠ some [] →
        st = some g ∧
        ∃ res', gcmStep st res loc' d = .ok (some g, res') ∧
          (∀ k, k ≠ g → dlookup res' k = dlookup res k) ∧
          ∃ lm tm, dlookup res' g = some lm ∧ dlookup lm loc' = some tm ∧
            dhas tm (timeOf d) = true) ∧
    _get_modelled_gcm usTable (fun _ => [c9obs]) "pr" "mavg" [some "USA"]
      .pnone none = .error (.unboundLocal "gcm_key") := by
  refine ⟨?_, ?_, by decide⟩
  · intro res loc d rest hd
    rw [gcmFoldResponse]
    simp only [gcmStep.eq_def, hd]
  · intro pre loc loc' st res hpre d g hd hg hm ha
    have hst : st = some g := by
      have := gcmFoldResponse_state loc pre none Dict.empty st res hpre
      rw [this, oor_none_right]
      exact hg
    subst hst
    refine ⟨rfl, ?_⟩
    obtain ⟨res', h1, h2, h3⟩ := insertIntoResults_ok res g loc' d hm ha
    refine ⟨res', ?_, h2, h3⟩
    simp only [gcmStep.eq_def, hd, h1]
    rfl

/-- Witness for C9: the first conjunct fires on a one-record response
starting with the gcm-less `c9obs`; the second on the prefix `[c9obsA]`
(carrying `gcm = "gcmx"`) followed by `c9obs`, whose entry lands under
`"gcmx"`. -/
theorem gcm_missing_field_semantics_witness :
    gcmFoldResponse none c9res0 (some "US") [c9obs] =
      .error (.unboundLocal "gcm_key") ∧
    (some "gcmx" = (some "gcmx" : Option String) ∧
      ∃ res', gcmStep (some "gcmx") c9res0 (some "US") c9obs =
          .ok (some "gcmx", res') ∧
        (∀ k, k ≠ "gcmx" → dlookup res' k = dlookup c9res0 k) ∧
        ∃ lm tm, dlookup res' "gcmx" = some lm ∧
          dlookup lm (some "US") = some tm ∧
          dhas tm (timeOf c9obs) = true) :=
  ⟨gcm_missing_field_semantics.1 c9res0 (some "US") c9obs [] rfl,
    gcm_missing_field_semantics.2.1 [c9obsA] (some "US") (some "US")
      (some "gcmx") c9res0 (by decide) c9obs "gcmx" rfl (by decide) rfl
      (by decide)⟩

end Wbpy
